import Mathlib

/-!
Verification of the distributed lease-lock and transactional synchronization
layer of src/core/db_manager.py (class DatabaseManager).

Shallow embedding: the object store is a lock blob (at key "<db>.lock",
modelled structurally since only its JSON parse outcome matters) plus an
association list of data blobs (key, bytes).  External nondeterminism
(wall-clock readings, generated lock ids, transient object-store errors)
is supplied by an explicit environment record; each modelled function is a
pure state transformer that also emits a trace of store-affecting events.
Machine integers do not overflow in the source paths modelled here; times
are Int seconds.
-/

/-- Maximum lock lifespan in seconds, module constant MAX_LOCK_AGE. -/
def MAX_LOCK_AGE : Int := 300

/-- Module constant LOCK_RETRY_ATTEMPTS. -/
def LOCK_RETRY_ATTEMPTS : Nat := 5

/-- Module constant LOCK_RETRY_DELAY, seconds slept between attempts.
The model records sleeps as trace events; the duration never matters. -/
def LOCK_RETRY_DELAY : Nat := 2

/-- Parse outcome of the "timestamp" field of the lock JSON:
absent, present but not ISO-8601 parseable, or parsed to a time. -/
inductive TsField
  | absent
  | unparseable
  | iso (t : Int)
deriving DecidableEq, Repr

/-- The decoded lock JSON dictionary: the optional "lock_id" field and the
"timestamp" field parse outcome.  The hostname and pid fields are
diagnostic only and never read back by the code, so they are omitted. -/
structure LockInfo where
  lockId : Option String
  ts : TsField
deriving DecidableEq, Repr

/-- Content of the lock blob: either undecodable JSON or a decoded record. -/
inductive LockBlob
  | garbage
  | valid (info : LockInfo)
deriving DecidableEq, Repr

/-- Data blobs of the bucket: association list from key to bytes, most
recent write first (List.lookup returns the first binding). -/
abbrev DataMap := List (String × String)

/-- Per-instance mutable state of DatabaseManager: self.lock_id and
whether self.engine has been created (get_session downloads again when
the engine is not yet initialized). -/
structure Inst where
  lockId : Option String
  engine : Bool
deriving DecidableEq, Repr

/-- Static configuration of a DatabaseManager instance: whether a GCS
bucket was configured (self.bucket is not None), the database file name,
and the lock timeout (max lease age in seconds). -/
structure Config where
  hasBucket : Bool
  dbFilename : String
  lockTimeout : Int
deriving DecidableEq, Repr

/-- A calendar UTC datetime, as produced by datetime.utcnow(), used only
for strftime-style backup-key naming. -/
structure DT where
  year : Nat
  month : Nat
  day : Nat
  hour : Nat
  minute : Nat
  second : Nat
deriving DecidableEq, Repr

/-- Validity bounds of a datetime value (what datetime.utcnow can return). -/
def DT.wf (t : DT) : Prop :=
  t.year ≤ 9999 ∧ 1 ≤ t.month ∧ t.month ≤ 12 ∧ 1 ≤ t.day ∧ t.day ≤ 31 ∧
  t.hour ≤ 23 ∧ t.minute ≤ 59 ∧ t.second ≤ 59

/-- Two-digit zero-padded decimal rendering, as strftime %m %d %H %M %S. -/
def pad2 (n : Nat) : List Char :=
  [Nat.digitChar (n / 10 % 10), Nat.digitChar (n % 10)]

/-- Four-digit zero-padded decimal rendering, as strftime %Y. -/
def pad4 (n : Nat) : List Char :=
  [Nat.digitChar (n / 1000 % 10), Nat.digitChar (n / 100 % 10),
   Nat.digitChar (n / 10 % 10), Nat.digitChar (n % 10)]

/-- strftime("%Y%m%d%H%M%S") of a datetime. -/
def fmtTs (t : DT) : String :=
  String.mk (pad4 t.year ++ pad2 t.month ++ pad2 t.day ++
             pad2 t.hour ++ pad2 t.minute ++ pad2 t.second)

/-- External environment: clock readings, generated ids, and injected
transient object-store failures, one flag per operation site.  Nat-indexed
fields are per acquire-loop iteration. -/
structure Env where
  startTime : Int
  timeAt : Nat → Int
  nowAt : Nat → Int
  existsFails : Nat → Bool
  readFails : Nat → Bool
  createFails : Nat → Bool
  forceFails : Nat → Bool
  newId : Nat → String
  fetchExistsFails : Bool
  fetchFails : Bool
  upCanonFails : Bool
  upBackupFails : Bool
  upNow : DT
  relReadFails : Bool
  relDeleteFails : Bool

/-- How a release invocation ended: local-only no-op, blob deleted,
ownership violation (blob left in place), or delete error. -/
inductive RelKind
  | noop
  | deleted
  | violation
  | failed
deriving DecidableEq, Repr

/-- Store-affecting events, in program order. -/
inductive Ev
  | tryCreate (id : String) (ok : Bool)
  | forceDelete (ok : Bool)
  | liveWait
  | sleep
  | release (k : RelKind)
  | writeData (key : String) (content : String)
deriving DecidableEq, Repr

/-- Whether an event is a data-blob write. -/
def isData : Ev → Bool
  | .writeData _ _ => true
  | _ => false

/-- Whether an event is a release invocation. -/
def isRel : Ev → Bool
  | .release _ => true
  | _ => false

/-- Whether an event is a failed lease-creation attempt. -/
def isFailedCreate : Ev → Bool
  | .tryCreate _ false => true
  | _ => false

/-- Total number of live-lease observations and failed creation attempts
of a trace; each fall-through iteration of the acquire loop contributes
exactly one. -/
def blockedWeight (tr : List Ev) : Nat :=
  tr.count Ev.liveWait + tr.countP isFailedCreate

/-- DatabaseManager._get_lock_info: empty result (the empty dict) when no
bucket is configured, the blob is absent, the download raises, or the JSON
does not decode; otherwise the decoded record. -/
def getLockInfo (hasBucket : Bool) (readFail : Bool) (blob? : Option LockBlob) :
    Option LockInfo :=
  if !hasBucket then none
  else
    match blob? with
    | none => none
    | some b =>
      if readFail then none
      else
        match b with
        | .garbage => none
        | .valid i => some i

/-- DatabaseManager._is_lock_expired: true when the info dict is empty or
lacks "timestamp", when the timestamp does not parse, or when the lock age
strictly exceeds lock_timeout. -/
def isLockExpired (cfg : Config) (now : Int) (info? : Option LockInfo) : Bool :=
  match info? with
  | none => true
  | some i =>
    match i.ts with
    | .absent => true
    | .unparseable => true
    | .iso t => decide (now - t > cfg.lockTimeout)

/-- The lease blob written by a successful DatabaseManager._create_lock at
iteration n: fresh lock id and the current timestamp. -/
def newLease (env : Env) (n : Nat) : LockBlob :=
  .valid { lockId := some (env.newId n), ts := .iso (env.nowAt n) }

/-- Result of one body of the acquire_lock while loop, below the timeout
check: either acquired (new blob, new self.lock_id, events) or fell
through to the attempt counter (resulting blob, self.lock_id, events). -/
inductive IterStep
  | acquired (blob : LockBlob) (id : String) (tr : List Ev)
  | blocked (blob? : Option LockBlob) (id? : Option String) (tr : List Ev)
deriving DecidableEq, Repr

/-- Trace of an iteration step. -/
def iterTrace : IterStep → List Ev
  | .acquired _ _ tr => tr
  | .blocked _ _ tr => tr

/-- One body of the acquire_lock loop at iteration n, below the timeout
check.  Mirrors lines 339-353 of db_manager.py: if _lock_exists is false
(blob absent, or the existence check raised), _create_lock is attempted
(setting self.lock_id on success, clearing it on failure); otherwise the
lock info is read, and if _is_lock_expired holds, _force_release_lock is
invoked (its result ignored) and _create_lock attempted immediately;
otherwise the live lock is left alone and the body falls through. -/
def acqIter (cfg : Config) (env : Env) (n : Nat) (blob? : Option LockBlob)
    (id? : Option String) : IterStep :=
  if blob?.isSome && !env.existsFails n then
    let info? := getLockInfo cfg.hasBucket (env.readFails n) blob?
    if isLockExpired cfg (env.nowAt n) info? then
      let blob₂ := if env.forceFails n then blob? else none
      if env.createFails n then
        .blocked blob₂ none
          [Ev.forceDelete (!env.forceFails n), Ev.tryCreate (env.newId n) false]
      else
        .acquired (newLease env n) (env.newId n)
          [Ev.forceDelete (!env.forceFails n), Ev.tryCreate (env.newId n) true]
    else
      .blocked blob? id? [Ev.liveWait]
  else
    if env.createFails n then
      .blocked blob? none [Ev.tryCreate (env.newId n) false]
    else
      .acquired (newLease env n) (env.newId n) [Ev.tryCreate (env.newId n) true]

/-- Outcome of acquire_lock: success, the wall-clock timeout exception, or
the attempt-ceiling exception naming the holder read at raise time. -/
inductive AcqOut
  | ok
  | timeoutErr
  | attemptsErr (holder : String)
deriving DecidableEq, Repr

/-- Full result of acquire_lock: outcome, final lock blob, final
self.lock_id, and emitted events. -/
structure AcqRes where
  out : AcqOut
  blob : Option LockBlob
  lockId : Option String
  trace : List Ev
deriving DecidableEq, Repr

/-- Holder name used in the attempt-ceiling exception message:
lock_info.get("lock_id", "unknown") on a fresh read. -/
def holderName (info? : Option LockInfo) : String :=
  match info? with
  | none => "unknown"
  | some i => i.lockId.getD "unknown"

/-- The while loop of DatabaseManager.acquire_lock.  gas counts the
remaining allowed sleeps: the source increments attempt on every
fall-through and raises when attempt exceeds LOCK_RETRY_ATTEMPTS, so the
sixth fall-through raises without sleeping; gas starts at
LOCK_RETRY_ATTEMPTS and a fall-through at gas = 0 raises.  The wall-clock
timeout is checked at the top of every iteration. -/
def acquireLoop (cfg : Config) (env : Env) (timeout : Int)
    (blob? : Option LockBlob) (id? : Option String) (n : Nat) (gas : Nat) :
    AcqRes :=
  if env.timeAt n - env.startTime > timeout then
    ⟨.timeoutErr, blob?, id?, []⟩
  else
    match acqIter cfg env n blob? id? with
    | .acquired b id tr => ⟨.ok, some b, some id, tr⟩
    | .blocked b? i? tr =>
      match gas with
      | 0 =>
        ⟨.attemptsErr (holderName (getLockInfo cfg.hasBucket (env.readFails n) b?)),
         b?, i?, tr⟩
      | g + 1 =>
        let r := acquireLoop cfg env timeout b? i? (n + 1) g
        ⟨r.out, r.blob, r.lockId, tr ++ Ev.sleep :: r.trace⟩

/-- DatabaseManager.acquire_lock: immediate success in local-only mode,
otherwise the retry loop starting with a zero attempt counter. -/
def acquire_lock (cfg : Config) (env : Env) (timeout : Int)
    (blob? : Option LockBlob) (id? : Option String) : AcqRes :=
  if cfg.hasBucket then acquireLoop cfg env timeout blob? id? 0 LOCK_RETRY_ATTEMPTS
  else ⟨.ok, blob?, id?, []⟩

/-- The bytes of a freshly bootstrapped empty store (new SQLite file with
the schema created and the initial persona row).  Opaque to this layer. -/
def emptyDb : String := "[fresh-empty-store]"

/-- core.models.initialize_db at the byte level: creates the file with a
fresh schema only when absent; on an existing file, create_all only
ensures tables exist and the contents are preserved. -/
def initializeDb (local? : Option String) : String :=
  local?.getD emptyDb

/-- DatabaseManager.download_db.  With a bucket: fetch the canonical blob
to local_path when it exists and the fetch succeeds; when the blob is
absent, initialize_db is called; when the existence check or the fetch
raises, the exception is caught and initialize_db is called only if no
local file exists.  Without a bucket, initialize_db is called only if no
local file exists.  Returns the resulting local file contents; the
function never raises. -/
def download_db (cfg : Config) (env : Env) (data : DataMap)
    (local? : Option String) : String :=
  if cfg.hasBucket then
    if env.fetchExistsFails then
      initializeDb local?
    else
      match data.lookup cfg.dbFilename with
      | some content =>
        if env.fetchFails then initializeDb local?
        else content
      | none => initializeDb local?
  else
    initializeDb local?

/-- The backup key written by upload_db:
"backups/<db_filename>.<YYYYMMDDHHMMSS>". -/
def backupKey (cfg : Config) (env : Env) : String :=
  "backups/" ++ cfg.dbFilename ++ "." ++ fmtTs env.upNow

/-- DatabaseManager.upload_db: no-op without a bucket; otherwise write the
local file to the canonical key, then to the timestamped backup key; any
exception is caught and logged, so a failed canonical write leaves the
store untouched and a failed backup write leaves just the canonical write. -/
def upload_db (cfg : Config) (env : Env) (data : DataMap) (localDb : String) :
    DataMap × List Ev :=
  if !cfg.hasBucket then (data, [])
  else if env.upCanonFails then (data, [])
  else
    let d₁ : DataMap := (cfg.dbFilename, localDb) :: data
    if env.upBackupFails then (d₁, [Ev.writeData cfg.dbFilename localDb])
    else
      ((backupKey cfg env, localDb) :: d₁,
       [Ev.writeData cfg.dbFilename localDb,
        Ev.writeData (backupKey cfg env) localDb])

/-- DatabaseManager.release_lock composed with _release_lock: nothing at
all when self.lock_id is unset; otherwise clear local state and return
early without a bucket; otherwise re-read the stored lock info and delete
the blob only when its lock_id matches ours, reporting an ownership
violation (and not deleting) on mismatch, and clearing self.lock_id on
every path. -/
def release_lock (cfg : Config) (env : Env) (blob? : Option LockBlob)
    (inst : Inst) : Option LockBlob × Inst × List Ev :=
  match inst.lockId with
  | none => (blob?, inst, [])
  | some myId =>
    if !cfg.hasBucket then (blob?, { inst with lockId := none }, [Ev.release .noop])
    else
      let info? := getLockInfo cfg.hasBucket env.relReadFails blob?
      if (info?.bind LockInfo.lockId) ≠ some myId then
        (blob?, { inst with lockId := none }, [Ev.release .violation])
      else if env.relDeleteFails then
        (blob?, { inst with lockId := none }, [Ev.release .failed])
      else
        (none, { inst with lockId := none }, [Ev.release .deleted])

/-- Outcome of with_session: the transform result, one of the two lock
acquisition exceptions, or the re-raised transform exception. -/
inductive Outcome
  | ok (res : String)
  | lockTimeout
  | lockAttempts (holder : String)
  | transformErr (e : String)
deriving DecidableEq, Repr

/-- Full result of with_session: outcome, final lock blob, final data
blobs, final instance state, final local file contents, emitted events. -/
structure WSRes where
  out : Outcome
  lockBlob : Option LockBlob
  data : DataMap
  inst : Inst
  localDb : Option String
  trace : List Ev
deriving DecidableEq, Repr

/-- Local file contents visible to the transform: with_session calls
download_db, then get_session, which downloads a second time when the
engine is not yet initialized (the second download is then run with the
just-written local file present). -/
def dlContent (cfg : Config) (env : Env) (data : DataMap)
    (local? : Option String) (engine : Bool) : String :=
  let l₁ := download_db cfg env data local?
  if engine then l₁ else download_db cfg env data (some l₁)

/-- DatabaseManager.with_session.  Acquire the lock with the default
60 second timeout (a lock exception propagates before the try block, so
no release call happens on that path); download and open a session; run
the transform; on success commit (the local file now holds the new
contents), upload, and return the result; on failure roll back (the local
file keeps the downloaded contents) and re-raise; in both of those cases
release the lock as the final step.  The transform is modelled as a
function from the downloaded contents to either an error or (new local
contents after commit, returned result). -/
def with_session (cfg : Config) (env : Env) (inst : Inst)
    (blob? : Option LockBlob) (data : DataMap) (local? : Option String)
    (f : String → Except String (String × String)) : WSRes :=
  let a := acquire_lock cfg env 60 blob? inst.lockId
  match a.out with
  | .timeoutErr =>
    ⟨.lockTimeout, a.blob, data, { inst with lockId := a.lockId }, local?, a.trace⟩
  | .attemptsErr h =>
    ⟨.lockAttempts h, a.blob, data, { inst with lockId := a.lockId }, local?, a.trace⟩
  | .ok =>
    let inst₁ : Inst := { lockId := a.lockId, engine := true }
    let l₂ := dlContent cfg env data local? inst.engine
    match f l₂ with
    | .ok (newContent, res) =>
      let up := upload_db cfg env data newContent
      let rel := release_lock cfg env a.blob inst₁
      ⟨.ok res, rel.1, up.1, rel.2.1, some newContent,
       a.trace ++ up.2 ++ rel.2.2⟩
    | .error e =>
      let rel := release_lock cfg env a.blob inst₁
      ⟨.transformErr e, rel.1, data, rel.2.1, some l₂,
       a.trace ++ rel.2.2⟩

/-- Concrete configuration used to evaluate the model on closed inputs:
a configured bucket, the default file name and lease lifetime. -/
def cfgW : Config :=
  { hasBucket := true, dbFilename := "lifegoal.db", lockTimeout := MAX_LOCK_AGE }

/-- Benign concrete environment: clocks at zero, fresh ids per iteration,
no injected object-store failures. -/
def envW : Env :=
  { startTime := 0
    timeAt := fun _ => 0
    nowAt := fun _ => 0
    existsFails := fun _ => false
    readFails := fun _ => false
    createFails := fun _ => false
    forceFails := fun _ => false
    newId := fun n => "holder" ++ toString n
    fetchExistsFails := false
    fetchFails := false
    upCanonFails := false
    upBackupFails := false
    upNow := { year := 2025, month := 10, day := 12,
               hour := 3, minute := 4, second := 5 }
    relReadFails := false
    relDeleteFails := false }

/-- Environment whose canonical-blob fetch raises. -/
def envFetchFail : Env := { envW with fetchFails := true }

/-- Environment whose lease-creation upload always raises. -/
def envCreateFail : Env := { envW with createFails := fun _ => true }

/-- Environment whose backup-blob upload raises after a successful
canonical write. -/
def envBackupFail : Env := { envW with upBackupFails := true }

/-- A transform that always succeeds, committing new contents "NEW" and
returning "done". -/
def fOkW : String → Except String (String × String) :=
  fun _ => .ok ("NEW", "done")

/-- A transform that always raises "boom". -/
def fErrW : String → Except String (String × String) :=
  fun _ => .error "boom"

/-! ## Helper lemmas -/

lemma acqIter_filter_isData (cfg : Config) (env : Env) (n : Nat)
    (blob? : Option LockBlob) (id? : Option String) :
    (iterTrace (acqIter cfg env n blob? id?)).filter isData = [] := by
  by_cases h1 : (blob?.isSome && !env.existsFails n) = true <;>
  by_cases h2 : isLockExpired cfg (env.nowAt n)
      (getLockInfo cfg.hasBucket (env.readFails n) blob?) = true <;>
  by_cases h3 : env.createFails n = true <;>
  by_cases h4 : env.forceFails n = true <;>
  simp [acqIter, h1, h2, h3, h4, iterTrace, isData]

lemma acqIter_filter_isRel (cfg : Config) (env : Env) (n : Nat)
    (blob? : Option LockBlob) (id? : Option String) :
    (iterTrace (acqIter cfg env n blob? id?)).filter isRel = [] := by
  by_cases h1 : (blob?.isSome && !env.existsFails n) = true <;>
  by_cases h2 : isLockExpired cfg (env.nowAt n)
      (getLockInfo cfg.hasBucket (env.readFails n) blob?) = true <;>
  by_cases h3 : env.createFails n = true <;>
  by_cases h4 : env.forceFails n = true <;>
  simp [acqIter, h1, h2, h3, h4, iterTrace, isRel]

lemma acquireLoop_filter_isData (cfg : Config) (env : Env) (t : Int) :
    ∀ (gas n : Nat) (blob? : Option LockBlob) (id? : Option String),
      ((acquireLoop cfg env t blob? id? n gas).trace.filter isData) = [] := by
  intro gas
  induction gas with
  | zero =>
    intro n b? i?
    rw [acquireLoop]
    split
    · rfl
    · split
      · rename_i b id tr heq
        have h := acqIter_filter_isData cfg env n b? i?
        rw [heq] at h
        simpa [iterTrace] using h
      · rename_i b2 i2 tr heq
        have h := acqIter_filter_isData cfg env n b? i?
        rw [heq] at h
        simpa [iterTrace] using h
  | succ g ih =>
    intro n b? i?
    rw [acquireLoop]
    split
    · rfl
    · split
      · rename_i b id tr heq
        have h := acqIter_filter_isData cfg env n b? i?
        rw [heq] at h
        simpa [iterTrace] using h
      · rename_i b2 i2 tr heq
        have h := acqIter_filter_isData cfg env n b? i?
        rw [heq] at h
        simp only [iterTrace] at h
        simp [List.filter_append, isData, h, ih]

lemma acquireLoop_filter_isRel (cfg : Config) (env : Env) (t : Int) :
    ∀ (gas n : Nat) (blob? : Option LockBlob) (id? : Option String),
      ((acquireLoop cfg env t blob? id? n gas).trace.filter isRel) = [] := by
  intro gas
  induction gas with
  | zero =>
    intro n b? i?
    rw [acquireLoop]
    split
    · rfl
    · split
      · rename_i b id tr heq
        have h := acqIter_filter_isRel cfg env n b? i?
        rw [heq] at h
        simpa [iterTrace] using h
      · rename_i b2 i2 tr heq
        have h := acqIter_filter_isRel cfg env n b? i?
        rw [heq] at h
        simpa [iterTrace] using h
  | succ g ih =>
    intro n b? i?
    rw [acquireLoop]
    split
    · rfl
    · split
      · rename_i b id tr heq
        have h := acqIter_filter_isRel cfg env n b? i?
        rw [heq] at h
        simpa [iterTrace] using h
      · rename_i b2 i2 tr heq
        have h := acqIter_filter_isRel cfg env n b? i?
        rw [heq] at h
        simp only [iterTrace] at h
        simp [List.filter_append, isRel, h, ih]

lemma acquire_lock_filter_isData (cfg : Config) (env : Env) (t : Int)
    (blob? : Option LockBlob) (id? : Option String) :
    ((acquire_lock cfg env t blob? id?).trace.filter isData) = [] := by
  unfold acquire_lock
  split
  · exact acquireLoop_filter_isData cfg env t LOCK_RETRY_ATTEMPTS 0 blob? id?
  · rfl

lemma acquire_lock_filter_isRel (cfg : Config) (env : Env) (t : Int)
    (blob? : Option LockBlob) (id? : Option String) :
    ((acquire_lock cfg env t blob? id?).trace.filter isRel) = [] := by
  unfold acquire_lock
  split
  · exact acquireLoop_filter_isRel cfg env t LOCK_RETRY_ATTEMPTS 0 blob? id?
  · rfl

lemma acquireLoop_ok_lockId (cfg : Config) (env : Env) (t : Int) :
    ∀ (gas n : Nat) (blob? : Option LockBlob) (id? : Option String),
      (acquireLoop cfg env t blob? id? n gas).out = .ok →
      ∃ id, (acquireLoop cfg env t blob? id? n gas).lockId = some id := by
  intro gas
  induction gas with
  | zero =>
    intro n b? i?
    rw [acquireLoop]
    split
    · intro h; simp at h
    · cases hit : acqIter cfg env n b? i? with
      | acquired b id tr => intro _; exact ⟨id, rfl⟩
      | blocked b2 i2 tr => intro h; simp at h
  | succ g ih =>
    intro n b? i?
    rw [acquireLoop]
    split
    · intro h; simp at h
    · cases hit : acqIter cfg env n b? i? with
      | acquired b id tr => intro _; exact ⟨id, rfl⟩
      | blocked b2 i2 tr =>
        intro h
        exact ih (n + 1) b2 i2 h

lemma acqIter_blocked_lockId (cfg : Config) (env : Env) (n : Nat)
    (blob? : Option LockBlob) (id? : Option String)
    (b2 : Option LockBlob) (i2 : Option String) (tr : List Ev)
    (h : acqIter cfg env n blob? id? = .blocked b2 i2 tr) :
    i2 = none ∨ i2 = id? := by
  by_cases h1 : (blob?.isSome && !env.existsFails n) = true <;>
  by_cases h2 : isLockExpired cfg (env.nowAt n)
      (getLockInfo cfg.hasBucket (env.readFails n) blob?) = true <;>
  by_cases h3 : env.createFails n = true <;>
  by_cases h4 : env.forceFails n = true <;>
  simp [acqIter, h1, h2, h3, h4] at h <;>
  first
    | (left; exact h.2.1.symm)
    | (right; exact h.2.1.symm)


lemma release_lock_some_shape (cfg : Config) (env : Env)
    (blob? : Option LockBlob) (id : String) (e : Bool) :
    ∃ k b2, release_lock cfg env blob? ⟨some id, e⟩ =
      (b2, ⟨none, e⟩, [Ev.release k]) := by
  unfold release_lock
  by_cases h1 : (!cfg.hasBucket) = true <;>
  by_cases h2 : ((getLockInfo cfg.hasBucket env.relReadFails blob?).bind
      LockInfo.lockId ≠ some id) <;>
  by_cases h3 : env.relDeleteFails = true <;>
  simp [h1, h2, h3]

lemma release_lock_trace_isData (cfg : Config) (env : Env)
    (blob? : Option LockBlob) (inst : Inst) :
    ((release_lock cfg env blob? inst).2.2.filter isData) = [] := by
  unfold release_lock
  cases inst.lockId with
  | none => rfl
  | some id =>
    by_cases h1 : (!cfg.hasBucket) = true <;>
    by_cases h2 : ((getLockInfo cfg.hasBucket env.relReadFails blob?).bind
        LockInfo.lockId ≠ some id) <;>
    by_cases h3 : env.relDeleteFails = true <;>
    simp [h1, h2, h3, isData]

lemma release_lock_lockId (cfg : Config) (env : Env)
    (blob? : Option LockBlob) (inst : Inst) :
    ((release_lock cfg env blob? inst).2.1).lockId = none ∨
    ((release_lock cfg env blob? inst).2.1) = inst := by
  unfold release_lock
  cases inst.lockId with
  | none => right; rfl
  | some id =>
    by_cases h1 : (!cfg.hasBucket) = true <;>
    by_cases h2 : ((getLockInfo cfg.hasBucket env.relReadFails blob?).bind
        LockInfo.lockId ≠ some id) <;>
    by_cases h3 : env.relDeleteFails = true <;>
    simp [h1, h2, h3]

lemma upload_db_trace_isRel (cfg : Config) (env : Env) (data : DataMap)
    (localDb : String) :
    ((upload_db cfg env data localDb).2.filter isRel) = [] := by
  unfold upload_db
  by_cases h1 : (!cfg.hasBucket) = true <;>
  by_cases h2 : env.upCanonFails = true <;>
  by_cases h3 : env.upBackupFails = true <;>
  simp [h1, h2, h3, isRel]

@[simp] lemma isFailedCreate_tryCreate (id : String) (ok : Bool) :
    isFailedCreate (Ev.tryCreate id ok) = !ok := by
  cases ok <;> rfl

@[simp] lemma isFailedCreate_forceDelete (ok : Bool) :
    isFailedCreate (Ev.forceDelete ok) = false := rfl

@[simp] lemma isFailedCreate_liveWait : isFailedCreate Ev.liveWait = false := rfl

@[simp] lemma isFailedCreate_sleep : isFailedCreate Ev.sleep = false := rfl

lemma blockedWeight_append (l₁ l₂ : List Ev) :
    blockedWeight (l₁ ++ l₂) = blockedWeight l₁ + blockedWeight l₂ := by
  simp [blockedWeight, List.count_append, List.countP_append]
  omega

lemma acqIter_acquired_weight (cfg : Config) (env : Env) (n : Nat)
    (blob? : Option LockBlob) (id? : Option String)
    (b : LockBlob) (id : String) (tr : List Ev)
    (h : acqIter cfg env n blob? id? = .acquired b id tr) :
    blockedWeight tr = 0 := by
  by_cases h1 : (blob?.isSome && !env.existsFails n) = true <;>
  by_cases h2 : isLockExpired cfg (env.nowAt n)
      (getLockInfo cfg.hasBucket (env.readFails n) blob?) = true <;>
  by_cases h3 : env.createFails n = true <;>
  by_cases h4 : env.forceFails n = true <;>
  simp [acqIter, h1, h2, h3, h4] at h <;>
  obtain ⟨-, -, rfl⟩ := h <;>
  simp [blockedWeight, List.count_cons, List.countP_cons]

lemma acqIter_blocked_weight (cfg : Config) (env : Env) (n : Nat)
    (blob? : Option LockBlob) (id? : Option String)
    (b2 : Option LockBlob) (i2 : Option String) (tr : List Ev)
    (h : acqIter cfg env n blob? id? = .blocked b2 i2 tr) :
    blockedWeight tr = 1 := by
  by_cases h1 : (blob?.isSome && !env.existsFails n) = true <;>
  by_cases h2 : isLockExpired cfg (env.nowAt n)
      (getLockInfo cfg.hasBucket (env.readFails n) blob?) = true <;>
  by_cases h3 : env.createFails n = true <;>
  by_cases h4 : env.forceFails n = true <;>
  simp [acqIter, h1, h2, h3, h4] at h <;>
  obtain ⟨-, -, rfl⟩ := h <;>
  simp [blockedWeight, List.count_cons, List.countP_cons]

lemma acquireLoop_ok_or_lockId_none (cfg : Config) (env : Env) (t : Int) :
    ∀ (gas n : Nat) (blob? : Option LockBlob),
      (acquireLoop cfg env t blob? none n gas).out = .ok ∨
      (acquireLoop cfg env t blob? none n gas).lockId = none := by
  intro gas
  induction gas with
  | zero =>
    intro n b?
    rw [acquireLoop]
    split
    · right; rfl
    · cases hit : acqIter cfg env n b? none with
      | acquired b id tr => left; rfl
      | blocked b2 i2 tr =>
        right
        rcases acqIter_blocked_lockId cfg env n b? none b2 i2 tr hit with h | h <;>
          simpa using h
  | succ g ih =>
    intro n b?
    rw [acquireLoop]
    split
    · right; rfl
    · cases hit : acqIter cfg env n b? none with
      | acquired b id tr => left; rfl
      | blocked b2 i2 tr =>
        rcases acqIter_blocked_lockId cfg env n b? none b2 i2 tr hit with h | h <;>
          subst h <;> exact ih (n + 1) b2

lemma acquireLoop_fail_cases (cfg : Config) (env : Env) (t : Int) :
    ∀ (gas n : Nat) (blob? : Option LockBlob) (id? : Option String),
      ((acquireLoop cfg env t blob? id? n gas).out = .timeoutErr →
        ∃ m, env.timeAt m - env.startTime > t) ∧
      (∀ h, (acquireLoop cfg env t blob? id? n gas).out = .attemptsErr h →
        blockedWeight (acquireLoop cfg env t blob? id? n gas).trace = gas + 1) := by
  intro gas
  induction gas with
  | zero =>
    intro n b? i?
    rw [acquireLoop]
    split
    · rename_i hc
      exact ⟨fun _ => ⟨n, hc⟩, fun h hh => by simp at hh⟩
    · cases hit : acqIter cfg env n b? i? with
      | acquired b id tr =>
        exact ⟨fun hh => by simp at hh, fun h hh => by simp at hh⟩
      | blocked b2 i2 tr =>
        refine ⟨fun hh => by simp at hh, fun h _ => ?_⟩
        simpa using acqIter_blocked_weight cfg env n b? i? b2 i2 tr hit
  | succ g ih =>
    intro n b? i?
    rw [acquireLoop]
    split
    · rename_i hc
      exact ⟨fun _ => ⟨n, hc⟩, fun h hh => by simp at hh⟩
    · cases hit : acqIter cfg env n b? i? with
      | acquired b id tr =>
        exact ⟨fun hh => by simp at hh, fun h hh => by simp at hh⟩
      | blocked b2 i2 tr =>
        refine ⟨fun hh => ?_, fun h hh => ?_⟩
        · exact (ih (n + 1) b2 i2).1 hh
        · have hw := acqIter_blocked_weight cfg env n b? i? b2 i2 tr hit
          have hr := (ih (n + 1) b2 i2).2 h hh
          have hs : blockedWeight [Ev.sleep] = 0 := by
            simp [blockedWeight]
          have : blockedWeight (tr ++ Ev.sleep :: (acquireLoop cfg env t b2 i2 (n + 1) g).trace)
              = blockedWeight tr + (blockedWeight [Ev.sleep] +
                blockedWeight (acquireLoop cfg env t b2 i2 (n + 1) g).trace) := by
            rw [← blockedWeight_append, ← blockedWeight_append]
            rfl
          simp only [this, hw, hr, hs]
          omega

/-! ## Claim theorems -/

/-- Claim C3, counterexample.  With the canonical blob present but its
fetch raising, and a stale local file already present at local_path,
download_db returns the stale local contents: no brand-new empty store is
bootstrapped, contradicting the claim that a fetch failure always
bootstraps a brand-new empty store at local_path. -/
theorem download_db_stale_local_counterexample :
    envFetchFail.fetchFails = true ∧
    ([("lifegoal.db", "REMOTE")] : DataMap).lookup cfgW.dbFilename =
      some "REMOTE" ∧
    download_db cfgW envFetchFail [("lifegoal.db", "REMOTE")] (some "STALE") =
      "STALE" ∧
    "STALE" ≠ emptyDb := by
  refine ⟨rfl, rfl, rfl, ?_⟩
  decide

/-- Claim C3, amended: download_db returns the canonical blob contents
when the blob exists and both the existence check and the fetch succeed;
in every other case (no bucket, missing blob, failed check, failed fetch)
it returns the existing local file if one exists and a brand-new empty
store only otherwise.  In particular download_db never raises: it is a
total function. -/
theorem download_db_characterization (cfg : Config) (env : Env)
    (data : DataMap) (local? : Option String) :
    download_db cfg env data local? =
      match (if cfg.hasBucket && !env.fetchExistsFails && !env.fetchFails
             then data.lookup cfg.dbFilename else none) with
      | some c => c
      | none => local?.getD emptyDb := by
  unfold download_db initializeDb
  by_cases h1 : cfg.hasBucket = true <;>
  by_cases h2 : env.fetchExistsFails = true <;>
  by_cases h3 : env.fetchFails = true <;>
  cases hl : data.lookup cfg.dbFilename <;>
  simp [h1, h2, h3, hl]

/-- Claim C5: a release by an instance whose recorded lock_id does not
match the lock_id stored in the current lease blob leaves the stored
lease unchanged, reports an ownership violation, and clears the local
lock_id; and a release by an instance that never acquired a lease is a
complete no-op. -/
theorem release_lock_ownership (cfg : Config) (env : Env)
    (blob? : Option LockBlob) (inst : Inst) :
    (∀ myId, inst.lockId = some myId → cfg.hasBucket = true →
      (getLockInfo cfg.hasBucket env.relReadFails blob?).bind LockInfo.lockId ≠
        some myId →
      release_lock cfg env blob? inst =
        (blob?, { inst with lockId := none }, [Ev.release .violation])) ∧
    (inst.lockId = none → release_lock cfg env blob? inst = (blob?, inst, [])) := by
  constructor
  · intro myId hid hb hmis
    unfold release_lock
    rw [hid]
    rw [hb] at hmis
    simp [hb, hmis]
  · intro hid
    unfold release_lock
    rw [hid]

/-- Claim C5 witness: a concrete mismatched release (stored holder differs
from ours) leaves the blob, reports the violation and clears lock_id; a
concrete release with no lock_id is a no-op. -/
theorem release_lock_ownership_witness :
    release_lock cfgW envW
        (some (.valid { lockId := some "other", ts := .iso 0 }))
        { lockId := some "mine", engine := true } =
      (some (.valid { lockId := some "other", ts := .iso 0 }),
       { lockId := none, engine := true }, [Ev.release .violation]) ∧
    release_lock cfgW envW
        (some (.valid { lockId := some "other", ts := .iso 0 }))
        { lockId := none, engine := true } =
      (some (.valid { lockId := some "other", ts := .iso 0 }),
       { lockId := none, engine := true }, []) := by
  constructor
  · exact (release_lock_ownership cfgW envW
      (some (.valid { lockId := some "other", ts := .iso 0 }))
      { lockId := some "mine", engine := true }).1 "mine" rfl rfl (by decide)
  · exact (release_lock_ownership cfgW envW
      (some (.valid { lockId := some "other", ts := .iso 0 }))
      { lockId := none, engine := true }).2 rfl

/-- Claim C10: within a single upload_db call the canonical write comes
first: if the canonical write fails nothing at all is written (no backup
blob is created), and any write to a non-canonical key can only be the
backup write of a trace whose first element is the canonical write. -/
theorem upload_db_write_order (cfg : Config) (env : Env) (data : DataMap)
    (localDb : String) :
    (env.upCanonFails = true → upload_db cfg env data localDb = (data, [])) ∧
    (∀ k v, Ev.writeData k v ∈ (upload_db cfg env data localDb).2 →
      k ≠ cfg.dbFilename →
      (upload_db cfg env data localDb).2 =
        [Ev.writeData cfg.dbFilename localDb,
         Ev.writeData (backupKey cfg env) localDb] ∧
      k = backupKey cfg env ∧ v = localDb) := by
  unfold upload_db
  by_cases h1 : (!cfg.hasBucket) = true <;>
  by_cases h2 : env.upCanonFails = true <;>
  by_cases h3 : env.upBackupFails = true <;>
  simp [h1, h2, h3] <;>
  intro k v hk <;>
  rcases hk with ⟨rfl, rfl⟩ | ⟨rfl, rfl⟩ <;>
  simp

/-- Claim C10 witness: with both writes succeeding, the backup write is
present, differs from the canonical key, and the trace is exactly
canonical-then-backup. -/
theorem upload_db_write_order_witness :
    (upload_db cfgW { envW with upCanonFails := true }
        [("lifegoal.db", "OLD")] "NEW" = ([("lifegoal.db", "OLD")], [])) ∧
    ((upload_db cfgW envW [("lifegoal.db", "OLD")] "NEW").2 =
      [Ev.writeData cfgW.dbFilename "NEW",
       Ev.writeData (backupKey cfgW envW) "NEW"]) := by
  constructor
  · exact (upload_db_write_order cfgW { envW with upCanonFails := true }
      [("lifegoal.db", "OLD")] "NEW").1 rfl
  · exact ((upload_db_write_order cfgW envW [("lifegoal.db", "OLD")] "NEW").2
      (backupKey cfgW envW) "NEW" (by decide) (by decide)).1

/-- Claim C6, counterexample.  With no lease blob ever present and every
lease-creation upload failing, acquire_lock raises the attempt-ceiling
exception (naming holder "unknown") although no attempt ever observed a
live lease and the wall-clock timeout never elapsed; so the claim that
the ceiling failure only happens when the attempts observed a live
non-expired lease is false. -/
theorem acquire_attempts_counterexample :
    (acquire_lock cfgW envCreateFail 60 none none).out =
      .attemptsErr "unknown" ∧
    (acquire_lock cfgW envCreateFail 60 none none).trace.count Ev.liveWait = 0 ∧
    envCreateFail.timeAt 5 - envCreateFail.startTime ≤ 60 := by
  refine ⟨by decide, by decide, by decide⟩

/-- Claim C6, amended: acquire_lock fails in exactly two ways, whichever
triggers first — the wall-clock timeout exception, only possible when
some iteration read a clock past the timeout, or the attempt-ceiling
exception after exactly LOCK_RETRY_ATTEMPTS + 1 consecutive unsuccessful
attempts, each of which either observed a live (non-expired) lease or
failed to create/replace a lease; the ceiling exception carries the
holder id read at failure time (or "unknown"). -/
theorem acquire_lock_failure_modes (cfg : Config) (env : Env) (t : Int)
    (blob? : Option LockBlob) (id? : Option String)
    (hb : cfg.hasBucket = true) :
    ((acquire_lock cfg env t blob? id?).out = .timeoutErr →
      ∃ m, env.timeAt m - env.startTime > t) ∧
    (∀ h, (acquire_lock cfg env t blob? id?).out = .attemptsErr h →
      blockedWeight (acquire_lock cfg env t blob? id?).trace =
        LOCK_RETRY_ATTEMPTS + 1) := by
  unfold acquire_lock
  simp only [hb, if_true]
  exact acquireLoop_fail_cases cfg env t LOCK_RETRY_ATTEMPTS 0 blob? id?

/-- Claim C6 witness: in the all-creations-fail run, the amended theorem
yields exactly LOCK_RETRY_ATTEMPTS + 1 unsuccessful attempts. -/
theorem acquire_lock_failure_modes_witness :
    blockedWeight (acquire_lock cfgW envCreateFail 60 none none).trace =
      LOCK_RETRY_ATTEMPTS + 1 :=
  (acquire_lock_failure_modes cfgW envCreateFail 60 none none rfl).2
    "unknown" (by decide)

lemma acquireLoop_expired_step (cfg : Config) (env : Env) (t : Int)
    (b : LockBlob) (id? : Option String) (n gas : Nat)
    (hTime : ¬(env.timeAt n - env.startTime > t))
    (hEx : env.existsFails n = false)
    (hExp : isLockExpired cfg (env.nowAt n)
      (getLockInfo cfg.hasBucket (env.readFails n) (some b)) = true) :
    (∃ rest, (acquireLoop cfg env t (some b) id? n gas).trace =
      Ev.forceDelete (!env.forceFails n) ::
      Ev.tryCreate (env.newId n) (!env.createFails n) :: rest) ∧
    (env.createFails n = false →
      (acquireLoop cfg env t (some b) id? n gas).out = .ok ∧
      (acquireLoop cfg env t (some b) id? n gas).blob = some (newLease env n) ∧
      (acquireLoop cfg env t (some b) id? n gas).lockId = some (env.newId n)) := by
  by_cases h3 : env.createFails n = true
  · have hit : acqIter cfg env n (some b) id? =
        .blocked (if env.forceFails n then some b else none) none
          [Ev.forceDelete (!env.forceFails n), Ev.tryCreate (env.newId n) false] := by
      simp [acqIter, hEx, hExp, h3]
    rw [acquireLoop, if_neg hTime, hit]
    constructor
    · cases gas with
      | zero =>
        simp only [h3, Bool.not_true]
        exact ⟨[], rfl⟩
      | succ g =>
        simp only [h3, Bool.not_true]
        exact ⟨_, rfl⟩
    · intro hc; rw [hc] at h3; cases h3
  · have hc : env.createFails n = false := by simpa using h3
    have hit : acqIter cfg env n (some b) id? =
        .acquired (newLease env n) (env.newId n)
          [Ev.forceDelete (!env.forceFails n), Ev.tryCreate (env.newId n) true] := by
      simp [acqIter, hEx, hExp, hc]
    rw [acquireLoop, if_neg hTime, hit]
    refine ⟨?_, fun _ => ⟨rfl, rfl, rfl⟩⟩
    simp only [hc, Bool.not_false]
    exact ⟨[], rfl⟩

/-- Claim C4: an acquire-loop iteration (at any iteration index and any
remaining attempt budget, so regardless of how many prior attempts were
spent waiting) that reads a lease whose stored timestamp is older than
lock_timeout deletes the expired lease and immediately attempts to create
its own lease within the same attempt: the very next two events are the
forced delete and the creation attempt, with no sleep between them, and
when the creation succeeds the loop returns acquired with the new lease
installed and self.lock_id set. -/
theorem acquire_expired_lease_takeover (cfg : Config) (env : Env) (t : Int)
    (info : LockInfo) (ts : Int) (id? : Option String) (n gas : Nat)
    (hTime : ¬(env.timeAt n - env.startTime > t))
    (hEx : env.existsFails n = false)
    (hRead : env.readFails n = false)
    (hb : cfg.hasBucket = true)
    (hts : info.ts = .iso ts)
    (hOld : env.nowAt n - ts > cfg.lockTimeout) :
    (∃ rest, (acquireLoop cfg env t (some (.valid info)) id? n gas).trace =
      Ev.forceDelete (!env.forceFails n) ::
      Ev.tryCreate (env.newId n) (!env.createFails n) :: rest) ∧
    (env.createFails n = false →
      (acquireLoop cfg env t (some (.valid info)) id? n gas).out = .ok ∧
      (acquireLoop cfg env t (some (.valid info)) id? n gas).blob =
        some (newLease env n) ∧
      (acquireLoop cfg env t (some (.valid info)) id? n gas).lockId =
        some (env.newId n)) := by
  have hExp : isLockExpired cfg (env.nowAt n)
      (getLockInfo cfg.hasBucket (env.readFails n) (some (.valid info))) = true := by
    simp [getLockInfo, hb, hRead, isLockExpired, hts, hOld]
  exact acquireLoop_expired_step cfg env t (.valid info) id? n gas hTime hEx hExp

/-- Environment whose utcnow readings are far past the stored lease
timestamps, making a lease with timestamp 0 expired. -/
def envLate : Env := { envW with nowAt := fun _ => 1000 }

/-- Claim C4 witness: a concrete expired lease (timestamp 0, now 1000,
lock_timeout 300) is replaced on the spot and the loop acquires. -/
theorem acquire_expired_lease_takeover_witness :
    (acquireLoop cfgW envLate 60
      (some (.valid { lockId := some "stale", ts := .iso 0 })) none 0 5).out =
        .ok ∧
    (acquireLoop cfgW envLate 60
      (some (.valid { lockId := some "stale", ts := .iso 0 })) none 0 5).blob =
        some (newLease envLate 0) := by
  have h := acquire_expired_lease_takeover cfgW envLate 60
    { lockId := some "stale", ts := .iso 0 } 0 none 0 5
    (by decide) rfl rfl rfl rfl (by decide)
  exact ⟨(h.2 rfl).1, (h.2 rfl).2.1⟩

/-- Claim C9: a lease blob whose JSON is undecodable, whose decoded dict
lacks a "timestamp" field, whose timestamp does not parse, or which
cannot be read at all, is classified as expired by _is_lock_expired, and
the acquire-loop iteration that observes it deletes it and immediately
attempts to create its own lease, acquiring the lock (rather than raising
or waiting) whenever the creation succeeds. -/
theorem acquire_malformed_lease_replaced (cfg : Config) (env : Env) (t : Int)
    (b : LockBlob) (id? : Option String) (n gas : Nat)
    (hTime : ¬(env.timeAt n - env.startTime > t))
    (hEx : env.existsFails n = false)
    (hBad : env.readFails n = true ∨ b = .garbage ∨
      (∃ lid, b = .valid { lockId := lid, ts := .absent }) ∨
      (∃ lid, b = .valid { lockId := lid, ts := .unparseable })) :
    isLockExpired cfg (env.nowAt n)
      (getLockInfo cfg.hasBucket (env.readFails n) (some b)) = true ∧
    (∃ rest, (acquireLoop cfg env t (some b) id? n gas).trace =
      Ev.forceDelete (!env.forceFails n) ::
      Ev.tryCreate (env.newId n) (!env.createFails n) :: rest) ∧
    (env.createFails n = false →
      (acquireLoop cfg env t (some b) id? n gas).out = .ok ∧
      (acquireLoop cfg env t (some b) id? n gas).blob = some (newLease env n)) := by
  have hExp : isLockExpired cfg (env.nowAt n)
      (getLockInfo cfg.hasBucket (env.readFails n) (some b)) = true := by
    rcases hBad with h | rfl | ⟨lid, rfl⟩ | ⟨lid, rfl⟩
    · by_cases hbk : cfg.hasBucket = true <;>
      simp [getLockInfo, isLockExpired, hbk, h]
    all_goals
      by_cases hbk : cfg.hasBucket = true <;>
      by_cases hr : env.readFails n = true <;>
      simp [getLockInfo, isLockExpired, hbk, hr]
  have h := acquireLoop_expired_step cfg env t b id? n gas hTime hEx hExp
  exact ⟨hExp, h.1, fun hc => ⟨(h.2 hc).1, (h.2 hc).2.1⟩⟩

/-- Claim C9 witness: a concrete undecodable lease blob is classified
expired, deleted and replaced, and the loop acquires. -/
theorem acquire_malformed_lease_replaced_witness :
    isLockExpired cfgW (envW.nowAt 0)
      (getLockInfo cfgW.hasBucket (envW.readFails 0) (some .garbage)) = true ∧
    (acquireLoop cfgW envW 60 (some .garbage) none 0 5).out = .ok := by
  have h := acquire_malformed_lease_replaced cfgW envW 60 .garbage none 0 5
    (by decide) rfl (Or.inr (Or.inl rfl))
  exact ⟨h.1, (h.2.2 rfl).1⟩

lemma upload_db_canonFail (cfg : Config) (env : Env) (data : DataMap)
    (localDb : String) (h : env.upCanonFails = true) :
    upload_db cfg env data localDb = (data, []) := by
  unfold upload_db
  by_cases hbk : (!cfg.hasBucket) = true <;> simp [hbk, h]

lemma upload_db_backupFail (cfg : Config) (env : Env) (data : DataMap)
    (localDb : String) (hb : cfg.hasBucket = true)
    (h1 : env.upCanonFails = false) (h2 : env.upBackupFails = true) :
    upload_db cfg env data localDb =
      ((cfg.dbFilename, localDb) :: data,
       [Ev.writeData cfg.dbFilename localDb]) := by
  unfold upload_db
  simp [hb, h1, h2]

lemma upload_db_success (cfg : Config) (env : Env) (data : DataMap)
    (localDb : String) (hb : cfg.hasBucket = true)
    (h1 : env.upCanonFails = false) (h2 : env.upBackupFails = false) :
    upload_db cfg env data localDb =
      ((backupKey cfg env, localDb) :: (cfg.dbFilename, localDb) :: data,
       [Ev.writeData cfg.dbFilename localDb,
        Ev.writeData (backupKey cfg env) localDb]) := by
  unfold upload_db
  simp [hb, h1, h2]

lemma fmtTs_length (t : DT) : (fmtTs t).length = 14 := rfl

lemma digitChar_mod_isDigit (n : Nat) :
    (Nat.digitChar (n % 10)).isDigit = true := by
  have h : n % 10 < 10 := Nat.mod_lt _ (by norm_num)
  have hall : ∀ m, m < 10 → (Nat.digitChar m).isDigit = true := by decide
  exact hall _ h

lemma fmtTs_all_digits (t : DT) : (fmtTs t).data.all Char.isDigit = true := by
  simp [fmtTs, pad4, pad2, digitChar_mod_isDigit]

lemma backupKey_ne (cfg : Config) (env : Env) :
    backupKey cfg env ≠ cfg.dbFilename := by
  intro h
  have hl := congrArg String.length h
  have h8 : ("backups/" : String).length = 8 := rfl
  have hdot : ("." : String).length = 1 := rfl
  simp [backupKey, String.length_append, fmtTs_length, h8, hdot] at hl
  omega

lemma acquire_lock_ok_lockId (cfg : Config) (env : Env) (t : Int)
    (blob? : Option LockBlob) (id? : Option String)
    (hb : cfg.hasBucket = true)
    (h : (acquire_lock cfg env t blob? id?).out = .ok) :
    ∃ id, (acquire_lock cfg env t blob? id?).lockId = some id := by
  unfold acquire_lock at h ⊢
  simp only [hb, if_true] at h ⊢
  exact acquireLoop_ok_lockId cfg env t LOCK_RETRY_ATTEMPTS 0 blob? id? h

lemma acquire_lock_fail_lockId (cfg : Config) (env : Env) (t : Int)
    (blob? : Option LockBlob)
    (h : (acquire_lock cfg env t blob? none).out ≠ .ok) :
    (acquire_lock cfg env t blob? none).lockId = none := by
  unfold acquire_lock at h ⊢
  by_cases hb : cfg.hasBucket = true
  · simp only [hb, if_true] at h ⊢
    rcases acquireLoop_ok_or_lockId_none cfg env t LOCK_RETRY_ATTEMPTS 0 blob?
      with ho | ho
    · exact absurd ho h
    · exact ho
  · simp [hb] at h

/-- Claim C1: when the transform raises, with_session performs no data
write at all: the data blobs (in particular the canonical one) are
byte-identical to their pre-call contents and the trace has no data-write
event; the local transaction is rolled back — the local file keeps the
downloaded contents the transform started from; and the original
exception is re-raised unchanged as the call outcome. -/
theorem with_session_transform_failure (cfg : Config) (env : Env)
    (inst : Inst) (blob? : Option LockBlob) (data : DataMap)
    (local? : Option String) (f : String → Except String (String × String))
    (e : String)
    (hA : (acquire_lock cfg env 60 blob? inst.lockId).out = .ok)
    (hf : ∀ c, f c = .error e) :
    (with_session cfg env inst blob? data local? f).out = .transformErr e ∧
    (with_session cfg env inst blob? data local? f).data = data ∧
    (with_session cfg env inst blob? data local? f).localDb =
      some (dlContent cfg env data local? inst.engine) ∧
    ((with_session cfg env inst blob? data local? f).trace.filter isData) = [] := by
  simp only [with_session]
  rw [hA, hf]
  refine ⟨rfl, rfl, rfl, ?_⟩
  simp [List.filter_append, acquire_lock_filter_isData, release_lock_trace_isData]

/-- Claim C1 witness: a concrete failing transform leaves the store data
untouched, re-raises "boom", and keeps the downloaded local contents. -/
theorem with_session_transform_failure_witness :
    (with_session cfgW envW { lockId := none, engine := false } none
      [("lifegoal.db", "OLD")] (some "OLD") fErrW).out =
        .transformErr "boom" ∧
    (with_session cfgW envW { lockId := none, engine := false } none
      [("lifegoal.db", "OLD")] (some "OLD") fErrW).data =
        [("lifegoal.db", "OLD")] := by
  have h := with_session_transform_failure cfgW envW
    { lockId := none, engine := false } none [("lifegoal.db", "OLD")]
    (some "OLD") fErrW "boom" (by decide) (fun c => rfl)
  exact ⟨h.1, h.2.1⟩

/-- Claim C7, counterexample.  With the canonical write succeeding but
the backup write raising, the upload step fails (the exception is caught
and logged), yet the canonical remote blob has been changed from "OLD" to
"NEW" by that failed upload — contradicting the claim that a failed
upload leaves the canonical remote blob unchanged. -/
theorem with_session_backup_fail_counterexample :
    envBackupFail.upCanonFails = false ∧
    envBackupFail.upBackupFails = true ∧
    (with_session cfgW envBackupFail { lockId := none, engine := false } none
      [("lifegoal.db", "OLD")] (some "OLD") fOkW).out = .ok "done" ∧
    (with_session cfgW envBackupFail { lockId := none, engine := false } none
      [("lifegoal.db", "OLD")] (some "OLD") fOkW).data.lookup "lifegoal.db" =
      some "NEW" ∧
    ("NEW" : String) ≠ "OLD" := by
  exact ⟨rfl, rfl, by decide, by decide, by decide⟩

lemma with_session_ok_ok (cfg : Config) (env : Env) (inst : Inst)
    (blob? : Option LockBlob) (data : DataMap) (local? : Option String)
    (f : String → Except String (String × String)) (nc res : String)
    (hA : (acquire_lock cfg env 60 blob? inst.lockId).out = .ok)
    (hf : f (dlContent cfg env data local? inst.engine) = .ok (nc, res)) :
    with_session cfg env inst blob? data local? f =
      { out := .ok res
        lockBlob := (release_lock cfg env
          (acquire_lock cfg env 60 blob? inst.lockId).blob
          { lockId := (acquire_lock cfg env 60 blob? inst.lockId).lockId,
            engine := true }).1
        data := (upload_db cfg env data nc).1
        inst := (release_lock cfg env
          (acquire_lock cfg env 60 blob? inst.lockId).blob
          { lockId := (acquire_lock cfg env 60 blob? inst.lockId).lockId,
            engine := true }).2.1
        localDb := some nc
        trace := (acquire_lock cfg env 60 blob? inst.lockId).trace ++
          (upload_db cfg env data nc).2 ++
          (release_lock cfg env
            (acquire_lock cfg env 60 blob? inst.lockId).blob
            { lockId := (acquire_lock cfg env 60 blob? inst.lockId).lockId,
              engine := true }).2.2 } := by
  simp only [with_session]
  rw [hA, hf]

lemma with_session_ok_err (cfg : Config) (env : Env) (inst : Inst)
    (blob? : Option LockBlob) (data : DataMap) (local? : Option String)
    (f : String → Except String (String × String)) (e : String)
    (hA : (acquire_lock cfg env 60 blob? inst.lockId).out = .ok)
    (hf : f (dlContent cfg env data local? inst.engine) = .error e) :
    with_session cfg env inst blob? data local? f =
      { out := .transformErr e
        lockBlob := (release_lock cfg env
          (acquire_lock cfg env 60 blob? inst.lockId).blob
          { lockId := (acquire_lock cfg env 60 blob? inst.lockId).lockId,
            engine := true }).1
        data := data
        inst := (release_lock cfg env
          (acquire_lock cfg env 60 blob? inst.lockId).blob
          { lockId := (acquire_lock cfg env 60 blob? inst.lockId).lockId,
            engine := true }).2.1
        localDb := some (dlContent cfg env data local? inst.engine)
        trace := (acquire_lock cfg env 60 blob? inst.lockId).trace ++
          (release_lock cfg env
            (acquire_lock cfg env 60 blob? inst.lockId).blob
            { lockId := (acquire_lock cfg env 60 blob? inst.lockId).lockId,
              engine := true }).2.2 } := by
  simp only [with_session]
  rw [hA, hf]

lemma with_session_timeout (cfg : Config) (env : Env) (inst : Inst)
    (blob? : Option LockBlob) (data : DataMap) (local? : Option String)
    (f : String → Except String (String × String))
    (hA : (acquire_lock cfg env 60 blob? inst.lockId).out = .timeoutErr) :
    with_session cfg env inst blob? data local? f =
      { out := .lockTimeout
        lockBlob := (acquire_lock cfg env 60 blob? inst.lockId).blob
        data := data
        inst := { inst with
          lockId := (acquire_lock cfg env 60 blob? inst.lockId).lockId }
        localDb := local?
        trace := (acquire_lock cfg env 60 blob? inst.lockId).trace } := by
  simp only [with_session]
  rw [hA]

lemma with_session_attempts (cfg : Config) (env : Env) (inst : Inst)
    (blob? : Option LockBlob) (data : DataMap) (local? : Option String)
    (f : String → Except String (String × String)) (h : String)
    (hA : (acquire_lock cfg env 60 blob? inst.lockId).out = .attemptsErr h) :
    with_session cfg env inst blob? data local? f =
      { out := .lockAttempts h
        lockBlob := (acquire_lock cfg env 60 blob? inst.lockId).blob
        data := data
        inst := { inst with
          lockId := (acquire_lock cfg env 60 blob? inst.lockId).lockId }
        localDb := local?
        trace := (acquire_lock cfg env 60 blob? inst.lockId).trace } := by
  simp only [with_session]
  rw [hA]

/-- Claim C7, amended: when the upload step fails after a successful
transform, with_session still returns the transform result, the failure
is not raised, and the already-committed local contents are kept; the
canonical remote blob is unchanged exactly when the canonical write
itself fails, whereas a failure at the backup write leaves the canonical
blob already updated (and no backup written). -/
theorem with_session_upload_failure (cfg : Config) (env : Env) (inst : Inst)
    (blob? : Option LockBlob) (data : DataMap) (local? : Option String)
    (f : String → Except String (String × String)) (nc res : String)
    (hb : cfg.hasBucket = true)
    (hA : (acquire_lock cfg env 60 blob? inst.lockId).out = .ok)
    (hf : ∀ c, f c = .ok (nc, res)) :
    (env.upCanonFails = true →
      (with_session cfg env inst blob? data local? f).out = .ok res ∧
      (with_session cfg env inst blob? data local? f).data = data ∧
      (with_session cfg env inst blob? data local? f).localDb = some nc) ∧
    (env.upCanonFails = false → env.upBackupFails = true →
      (with_session cfg env inst blob? data local? f).out = .ok res ∧
      (with_session cfg env inst blob? data local? f).localDb = some nc ∧
      (with_session cfg env inst blob? data local? f).data =
        (cfg.dbFilename, nc) :: data ∧
      ((with_session cfg env inst blob? data local? f).trace.filter isData) =
        [Ev.writeData cfg.dbFilename nc]) := by
  rw [with_session_ok_ok cfg env inst blob? data local? f nc res hA (hf _)]
  constructor
  · intro hcf
    rw [upload_db_canonFail cfg env data nc hcf]
    exact ⟨rfl, rfl, rfl⟩
  · intro h1 h2
    rw [upload_db_backupFail cfg env data nc hb h1 h2]
    refine ⟨rfl, rfl, rfl, ?_⟩
    simp [List.filter_append, acquire_lock_filter_isData,
      release_lock_trace_isData, isData]

/-- Claim C7 witness: the amended theorem applied to a concrete
backup-failure run returns the transform result with the canonical key
updated. -/
theorem with_session_upload_failure_witness :
    (with_session cfgW envBackupFail { lockId := none, engine := false } none
      [("lifegoal.db", "OLD")] (some "OLD") fOkW).out = .ok "done" ∧
    (with_session cfgW envBackupFail { lockId := none, engine := false } none
      [("lifegoal.db", "OLD")] (some "OLD") fOkW).data =
      [("lifegoal.db", "NEW"), ("lifegoal.db", "OLD")] := by
  have h := (with_session_upload_failure cfgW envBackupFail
    { lockId := none, engine := false } none [("lifegoal.db", "OLD")]
    (some "OLD") fOkW "NEW" "done" rfl (by decide) (fun c => rfl)).2 rfl rfl
  exact ⟨h.1, h.2.2.1⟩

/-- Claim C8: a successful with_session call (transform succeeds, both
uploads succeed) performs exactly two data writes, in order the canonical
key and then the backup key, and writes to no other data key; the backup
key is "backups/" followed by the db file name, a dot and the
strftime("%Y%m%d%H%M%S") stamp, which is a string of exactly fourteen
decimal digits, and it differs from the canonical key. -/
theorem with_session_success_writes (cfg : Config) (env : Env) (inst : Inst)
    (blob? : Option LockBlob) (data : DataMap) (local? : Option String)
    (f : String → Except String (String × String)) (nc res : String)
    (hb : cfg.hasBucket = true)
    (hA : (acquire_lock cfg env 60 blob? inst.lockId).out = .ok)
    (hf : ∀ c, f c = .ok (nc, res))
    (h1 : env.upCanonFails = false) (h2 : env.upBackupFails = false)
    (hwf : env.upNow.wf) :
    ((with_session cfg env inst blob? data local? f).trace.filter isData) =
      [Ev.writeData cfg.dbFilename nc,
       Ev.writeData (backupKey cfg env) nc] ∧
    backupKey cfg env =
      "backups/" ++ cfg.dbFilename ++ "." ++ fmtTs env.upNow ∧
    (fmtTs env.upNow).length = 14 ∧
    ((fmtTs env.upNow).data.all Char.isDigit) = true ∧
    backupKey cfg env ≠ cfg.dbFilename ∧
    (with_session cfg env inst blob? data local? f).out = .ok res := by
  rw [with_session_ok_ok cfg env inst blob? data local? f nc res hA (hf _)]
  rw [upload_db_success cfg env data nc hb h1 h2]
  refine ⟨?_, rfl, fmtTs_length env.upNow, fmtTs_all_digits env.upNow,
    backupKey_ne cfg env, rfl⟩
  simp [List.filter_append, acquire_lock_filter_isData,
    release_lock_trace_isData, isData]

/-- Claim C8 witness: a concrete successful run writes exactly the
canonical key and the timestamped backup key, in that order. -/
theorem with_session_success_writes_witness :
    ((with_session cfgW envW { lockId := none, engine := false } none
      [("lifegoal.db", "OLD")] (some "OLD") fOkW).trace.filter isData) =
      [Ev.writeData "lifegoal.db" "NEW",
       Ev.writeData "backups/lifegoal.db.20251012030405" "NEW"] ∧
    (with_session cfgW envW { lockId := none, engine := false } none
      [("lifegoal.db", "OLD")] (some "OLD") fOkW).out = .ok "done" := by
  have h := with_session_success_writes cfgW envW
    { lockId := none, engine := false } none [("lifegoal.db", "OLD")]
    (some "OLD") fOkW "NEW" "done" rfl (by decide) (fun c => rfl) rfl rfl
    (by refine ⟨?_, ?_, ?_, ?_, ?_, ?_, ?_, ?_⟩ <;> decide)
  have hk : backupKey cfgW envW = "backups/lifegoal.db.20251012030405" := by
    decide
  refine ⟨?_, h.2.2.2.2.2⟩
  rw [← hk]
  exact h.1

/-- Claim C2: with_session never returns or raises while its instance
still holds the lease — self.lock_id is clear on every exit path — and
on every path where a lease was acquired the lease is released exactly
once, as the very last operation (after a successful transform and after
a transform failure alike).  On a lock-acquisition failure no lease was
taken: self.lock_id stays clear and no release operation occurs, the
specified no-op (the source does not even enter the try block, and
release_lock with no lock_id does nothing). -/
theorem with_session_release_discipline (cfg : Config) (env : Env)
    (inst : Inst) (blob? : Option LockBlob) (data : DataMap)
    (local? : Option String) (f : String → Except String (String × String))
    (hb : cfg.hasBucket = true) (h0 : inst.lockId = none) :
    ((with_session cfg env inst blob? data local? f).inst.lockId = none) ∧
    ((acquire_lock cfg env 60 blob? inst.lockId).out = .ok →
      ∃ pre k, (with_session cfg env inst blob? data local? f).trace =
        pre ++ [Ev.release k] ∧ pre.filter isRel = []) ∧
    ((acquire_lock cfg env 60 blob? inst.lockId).out ≠ .ok →
      ((with_session cfg env inst blob? data local? f).trace.filter isRel) =
        []) := by
  cases ho : (acquire_lock cfg env 60 blob? inst.lockId).out with
  | ok =>
    obtain ⟨id, hid⟩ := acquire_lock_ok_lockId cfg env 60 blob? inst.lockId hb ho
    obtain ⟨k, b2, hrel⟩ := release_lock_some_shape cfg env
      (acquire_lock cfg env 60 blob? inst.lockId).blob id true
    cases hf2 : f (dlContent cfg env data local? inst.engine) with
    | ok p =>
      obtain ⟨nc, res⟩ := p
      rw [with_session_ok_ok cfg env inst blob? data local? f nc res ho hf2]
      rw [hid, hrel]
      refine ⟨rfl, fun _ => ?_, fun hno => absurd rfl hno⟩
      exact ⟨(acquire_lock cfg env 60 blob? inst.lockId).trace ++
          (upload_db cfg env data nc).2, k, rfl,
        by simp [List.filter_append, acquire_lock_filter_isRel,
          upload_db_trace_isRel]⟩
    | error e =>
      rw [with_session_ok_err cfg env inst blob? data local? f e ho hf2]
      rw [hid, hrel]
      refine ⟨rfl, fun _ => ?_, fun hno => absurd rfl hno⟩
      exact ⟨(acquire_lock cfg env 60 blob? inst.lockId).trace, k, rfl,
        acquire_lock_filter_isRel cfg env 60 blob? inst.lockId⟩
  | timeoutErr =>
    rw [with_session_timeout cfg env inst blob? data local? f ho]
    have hnone : (acquire_lock cfg env 60 blob? inst.lockId).lockId = none := by
      rw [h0] at ho ⊢
      exact acquire_lock_fail_lockId cfg env 60 blob? (by simp [ho])
    refine ⟨by simp [hnone], fun hok => ?_,
      fun _ => acquire_lock_filter_isRel cfg env 60 blob? inst.lockId⟩
    exact absurd hok (by simp)
  | attemptsErr hh =>
    rw [with_session_attempts cfg env inst blob? data local? f hh ho]
    have hnone : (acquire_lock cfg env 60 blob? inst.lockId).lockId = none := by
      rw [h0] at ho ⊢
      exact acquire_lock_fail_lockId cfg env 60 blob? (by simp [ho])
    refine ⟨by simp [hnone], fun hok => ?_,
      fun _ => acquire_lock_filter_isRel cfg env 60 blob? inst.lockId⟩
    exact absurd hok (by simp)

/-- Claim C2 witness: a concrete successful run ends with self.lock_id
clear and its trace ends with the single release event. -/
theorem with_session_release_discipline_witness :
    (with_session cfgW envW { lockId := none, engine := false } none
      [("lifegoal.db", "OLD")] (some "OLD") fOkW).inst.lockId = none ∧
    (∃ pre k, (with_session cfgW envW { lockId := none, engine := false } none
      [("lifegoal.db", "OLD")] (some "OLD") fOkW).trace =
        pre ++ [Ev.release k] ∧ pre.filter isRel = []) := by
  have h := with_session_release_discipline cfgW envW
    { lockId := none, engine := false } none [("lifegoal.db", "OLD")]
    (some "OLD") fOkW rfl rfl
  exact ⟨h.1, h.2.1 (by decide)⟩
